import Mathlib

/-!
Verification of the extraction-response validation and normalization pipeline
of the PatchupPDF upload backend (`src/server.js`, POST `/upload` route).

JavaScript strings are modelled as lists of UTF-16 code units (`List Nat`),
which is the data model the source's regexes and `JSON.parse` operate on.
The route handler after the external AI call is embedded as a pure function
from the AI-returned text (plus flags describing the outcomes of the external
collaborators: the AI call, the Firestore batch commit, and the temp-file
unlink) to an observable result: HTTP status, which response was sent, how
many unlink attempts were made, the Firestore collection and staged batch
writes, the write and skip counters, and the response body.

External-collaborator behavior that the source relies on is modelled
faithfully where the claims depend on it: `JSON.parse` is embedded as an
ECMA-404 JSON parser below, JS truthiness and `String(...)` conversion are
embedded per the ECMAScript rules on the constructors of the JSON type.
SDK-side argument validation inside Firestore client calls (for example path
checks on collection or document ids) is outside the model: `collection`,
`doc`, `batch.set` are modelled as pure record keeping, and `batch.commit`
as a last-write-wins keyed store update.
-/

namespace PatchupPdf

/-! ### UTF-16 code units and character classes -/

/-- UTF-16 encoding of one Unicode scalar value: one code unit for BMP
characters, a surrogate pair for supplementary ones. -/
def utf16Char (c : Char) : List Nat :=
  if c.toNat < 0x10000 then [c.toNat]
  else [0xD800 + (c.toNat - 0x10000) / 0x400, 0xDC00 + (c.toNat - 0x10000) % 0x400]

/-- The UTF-16 code units of a Lean string literal; used to write the JS
strings of the source in theorems. -/
def asKey (s : String) : List Nat :=
  (s.data.map utf16Char).flatten

/-- The code-unit class matched by the JS regex class `\s` (ECMAScript
WhiteSpace plus LineTerminator), as used by `codeBlockRegex` and by the first
`replace` of the sanitizer in `src/server.js`. -/
def jsWsU (u : Nat) : Bool :=
  u == 0x09 || u == 0x0A || u == 0x0B || u == 0x0C || u == 0x0D || u == 0x20 ||
  u == 0xA0 || u == 0x1680 || decide (0x2000 ≤ u ∧ u ≤ 0x200A) ||
  u == 0x2028 || u == 0x2029 || u == 0x202F || u == 0x205F || u == 0x3000 || u == 0xFEFF

/-- JSON insignificant whitespace (tab, line feed, carriage return, space),
the only whitespace `JSON.parse` skips. -/
def jsonWsU (u : Nat) : Bool :=
  u == 0x09 || u == 0x0A || u == 0x0D || u == 0x20

/-- The code-unit class `[a-zA-Z0-9_]` kept by the second `replace` of the
sanitizer in `src/server.js` (its regex deletes the complement). -/
def isWordU (u : Nat) : Bool :=
  decide (0x41 ≤ u ∧ u ≤ 0x5A) || decide (0x61 ≤ u ∧ u ≤ 0x7A) ||
  decide (0x30 ≤ u ∧ u ≤ 0x39) || u == 0x5F

/-! ### Code-fence unwrapping (`codeBlockRegex`, `src/server.js` lines 408-413)

The source runs `extractedText.match(/^```json\s*([\s\S]*?)\s*```$/)` and
replaces `extractedText` by `match[1]` when the match exists and the captured
group is truthy (a non-empty string).

Without the `m` flag, `^` and `$` anchor at the ends of the whole string, so
the regex matches exactly the strings of the form
`"```json" ++ inner ++ "```"` (any `inner`, so: 7-unit opener as a prefix,
3-unit closer as a suffix, total length at least 10).  When it matches, the
greedy leading `\s*`, the lazy capture, and the trailing `\s*` followed by
the anchored closer force the captured group to be `inner` stripped of its
maximal leading and trailing whitespace runs: the closer matched by `` ```$ ``
is necessarily the final three units, the leading `\s*` consumes the maximal
whitespace run at the start of `inner`, and the lazy group then ends at the
earliest point from which only whitespace remains before the final closer. -/

/-- Strip the maximal leading and trailing runs of JS whitespace. -/
def trimU (us : List Nat) : List Nat :=
  (((us.dropWhile jsWsU).reverse).dropWhile jsWsU).reverse

/-- Whether the whole string matches `codeBlockRegex`:
`` ```json `` as a prefix and `` ``` `` as a (disjoint) suffix. -/
def fenceShape (t : List Nat) : Bool :=
  match t with
  | 0x60 :: 0x60 :: 0x60 :: 0x6A :: 0x73 :: 0x6F :: 0x6E :: rest =>
    match rest.reverse with
    | 0x60 :: 0x60 :: 0x60 :: _ => true
    | _ => false
  | _ => false

/-- The code-fence unwrap step of `src/server.js` (lines 408-413): on a
whole-string fence match with a truthy (non-empty) captured group, keep only
the trimmed inner content; otherwise keep the input unchanged. -/
def unwrapCodeFence (t : List Nat) : List Nat :=
  match t with
  | 0x60 :: 0x60 :: 0x60 :: 0x6A :: 0x73 :: 0x6F :: 0x6E :: rest =>
    match rest.reverse with
    | 0x60 :: 0x60 :: 0x60 :: revInner =>
      if trimU revInner.reverse = [] then t else trimU revInner.reverse
    | _ => t
  | _ => t

/-- Wrapping a string `s` as `` ```json\n<s>\n``` ``, the shape quantified
over by the spec's fence round-trip property. -/
def wrapJson (s : List Nat) : List Nat :=
  [0x60, 0x60, 0x60, 0x6A, 0x73, 0x6F, 0x6E, 0x0A] ++ s ++ [0x0A, 0x60, 0x60, 0x60]

/-! ### Storage-key sanitization (`sanitizedMainArtist`, lines 446-448)

`main_artist.replace(/\s+/g, '_').replace(/[^a-zA-Z0-9_]/g, '')`. -/

/-- First `replace`: every maximal run of JS whitespace becomes one
underscore.  The boolean records whether we are inside a whitespace run. -/
def collapseWsU : Bool → List Nat → List Nat
  | _, [] => []
  | inRun, u :: us =>
    if jsWsU u then
      if inRun then collapseWsU true us else 0x5F :: collapseWsU true us
    else u :: collapseWsU false us

/-- The sanitizer of `src/server.js`: collapse whitespace runs to single
underscores, then delete every unit outside `[a-zA-Z0-9_]`. -/
def sanitizeStorageKey (us : List Nat) : List Nat :=
  (collapseWsU false us).filter isWordU

/-! ### JSON values and `JSON.parse` (lines 416-425)

`JSON.parse` is embedded as an ECMA-404 recursive-descent parser over code
units.  JSON strings are kept as code-unit lists (as in JS, `\uXXXX` escapes
may produce lone surrogates).  Numbers are kept in exact decimal
mantissa-times-ten-to-the-exponent form, normalized so that integral values
have a non-negative exponent; the host parses to binary doubles, which agrees
on the (small) integer literals this pipeline stringifies. -/

/-- Parsed JSON values.  `num m e` denotes `m * 10 ^ e`; `obj` keeps the
members in source order (lookup takes the last binding, as JS object literal
evaluation overwrites earlier duplicate keys). -/
inductive Json where
  | null
  | bool (b : Bool)
  | num (mant : Int) (exp10 : Int)
  | str (units : List Nat)
  | arr (elems : List Json)
  | obj (fields : List (List Nat × Json))

/-- Whether a parsed value is JSON `null` (destructuring a `null` throws a
`TypeError` in JS, which the source's inner `try` turns into the Firestore
error response). -/
def isNullJson : Json → Bool
  | Json.null => true
  | _ => false

/-- Value of a hexadecimal digit code unit. -/
def hexVal (u : Nat) : Option Nat :=
  if decide (0x30 ≤ u ∧ u ≤ 0x39) then some (u - 0x30)
  else if decide (0x41 ≤ u ∧ u ≤ 0x46) then some (u - 0x41 + 10)
  else if decide (0x61 ≤ u ∧ u ≤ 0x66) then some (u - 0x61 + 10)
  else none

/-- Prepend one code unit to the string being accumulated by `parseStrBody`. -/
def pushU (u : Nat) (r : Option (List Nat × List Nat)) : Option (List Nat × List Nat) :=
  r.map (fun p => (u :: p.1, p.2))

/-- Body of a JSON string after the opening quote: returns the decoded code
units and the rest of the input after the closing quote.  Raw control
characters below `U+0020` are rejected; the escapes are exactly the JSON
ones. -/
def parseStrBody : List Nat → Option (List Nat × List Nat)
  | 0x22 :: rest => some ([], rest)
  | 0x5C :: 0x22 :: rest => pushU 0x22 (parseStrBody rest)
  | 0x5C :: 0x5C :: rest => pushU 0x5C (parseStrBody rest)
  | 0x5C :: 0x2F :: rest => pushU 0x2F (parseStrBody rest)
  | 0x5C :: 0x62 :: rest => pushU 0x08 (parseStrBody rest)
  | 0x5C :: 0x66 :: rest => pushU 0x0C (parseStrBody rest)
  | 0x5C :: 0x6E :: rest => pushU 0x0A (parseStrBody rest)
  | 0x5C :: 0x72 :: rest => pushU 0x0D (parseStrBody rest)
  | 0x5C :: 0x74 :: rest => pushU 0x09 (parseStrBody rest)
  | 0x5C :: 0x75 :: a :: b :: c :: d :: rest =>
    match hexVal a, hexVal b, hexVal c, hexVal d with
    | some ha, some hb, some hc, some hd =>
      pushU (ha * 0x1000 + hb * 0x100 + hc * 0x10 + hd) (parseStrBody rest)
    | _, _, _, _ => none
  | 0x5C :: _ => none
  | u :: rest => if u < 0x20 then none else pushU u (parseStrBody rest)
  | [] => none

/-- Decimal digit code unit. -/
def isDigitU (u : Nat) : Bool :=
  decide (0x30 ≤ u ∧ u ≤ 0x39)

/-- Numeric value of a list of decimal digit code units. -/
def digitsVal (ds : List Nat) : Nat :=
  ds.foldl (fun acc u => acc * 10 + (u - 0x30)) 0

/-- Strip factors of ten from the mantissa while the exponent is negative,
so that integral decimal literals are represented with exponent zero. -/
def normMant : Int → Nat → Int × Nat
  | m, 0 => (m, 0)
  | m, k + 1 => if m % 10 == 0 && m != 0 then normMant (m / 10) k else (m, k + 1)

/-- Build the `Json.num` for mantissa `m` and exponent `e`, normalized. -/
def mkNum (m : Int) (e : Int) : Json :=
  if m == 0 then Json.num 0 0
  else if e < 0 then
    match normMant m (-e).toNat with
    | (m2, k) => Json.num m2 (-(k : Int))
  else Json.num m e

/-- Fraction and exponent parts of a JSON number, given the sign and the
integer part already read. -/
def parseNumTail (neg : Bool) (ip : Nat) (r : List Nat) : Option (Json × List Nat) :=
  let fracStep :=
    match r with
    | 0x2E :: r2 =>
      let fd := r2.takeWhile isDigitU
      if fd.isEmpty then none
      else some (ip * 10 ^ fd.length + digitsVal fd, fd.length, r2.dropWhile isDigitU)
    | _ => some (ip, 0, r)
  match fracStep with
  | none => none
  | some (mant, scale, r3) =>
    let expStep :=
      match r3 with
      | 0x65 :: r4 => some r4
      | 0x45 :: r4 => some r4
      | _ => none
    match expStep with
    | none =>
      some (mkNum (if neg then -(mant : Int) else (mant : Int)) (-(scale : Int)), r3)
    | some r4 =>
      let signEd :=
        match r4 with
        | 0x2B :: r5 => some (false, r5)
        | 0x2D :: r5 => some (true, r5)
        | _ => some (false, r4)
      match signEd with
      | some (eneg, r5) =>
        let ed := r5.takeWhile isDigitU
        if ed.isEmpty then none
        else
          let ev : Int := if eneg then -(digitsVal ed : Int) else (digitsVal ed : Int)
          some (mkNum (if neg then -(mant : Int) else (mant : Int)) (ev - (scale : Int)),
            r5.dropWhile isDigitU)
      | none => none

/-- A JSON number literal: optional minus, integer part `0 | [1-9][0-9]*`,
then optional fraction and exponent. -/
def parseNum (input : List Nat) : Option (Json × List Nat) :=
  let signR :=
    match input with
    | 0x2D :: r => (true, r)
    | _ => (false, input)
  match signR with
  | (neg, r1) =>
    match r1 with
    | u :: r2 =>
      if u == 0x30 then parseNumTail neg 0 r2
      else if isDigitU u then
        parseNumTail neg (digitsVal (u :: r2.takeWhile isDigitU)) (r2.dropWhile isDigitU)
      else none
    | [] => none

/-- Skip JSON insignificant whitespace. -/
def skipWsU (l : List Nat) : List Nat :=
  l.dropWhile jsonWsU

mutual

/-- One JSON value, fuel-indexed: literals, strings, numbers, arrays,
objects, with whitespace skipped before the value. -/
def parseValue : Nat → List Nat → Option (Json × List Nat)
  | 0, _ => none
  | fuel + 1, input =>
    match skipWsU input with
    | 0x6E :: 0x75 :: 0x6C :: 0x6C :: rest => some (Json.null, rest)
    | 0x74 :: 0x72 :: 0x75 :: 0x65 :: rest => some (Json.bool true, rest)
    | 0x66 :: 0x61 :: 0x6C :: 0x73 :: 0x65 :: rest => some (Json.bool false, rest)
    | 0x22 :: rest => (parseStrBody rest).map (fun p => (Json.str p.1, p.2))
    | 0x5B :: rest =>
      match skipWsU rest with
      | 0x5D :: r2 => some (Json.arr [], r2)
      | r2 => (parseArrItems fuel r2).map (fun p => (Json.arr p.1, p.2))
    | 0x7B :: rest =>
      match skipWsU rest with
      | 0x7D :: r2 => some (Json.obj [], r2)
      | r2 => (parseObjItems fuel r2).map (fun p => (Json.obj p.1, p.2))
    | other => parseNum other

/-- Comma-separated array elements up to and including the closing bracket. -/
def parseArrItems : Nat → List Nat → Option (List Json × List Nat)
  | 0, _ => none
  | fuel + 1, input =>
    match parseValue fuel input with
    | none => none
    | some (v, rest) =>
      match skipWsU rest with
      | 0x2C :: r2 => (parseArrItems fuel r2).map (fun p => (v :: p.1, p.2))
      | 0x5D :: r2 => some ([v], r2)
      | _ => none

/-- Comma-separated object members up to and including the closing brace. -/
def parseObjItems : Nat → List Nat → Option (List (List Nat × Json) × List Nat)
  | 0, _ => none
  | fuel + 1, input =>
    match skipWsU input with
    | 0x22 :: rest =>
      match parseStrBody rest with
      | none => none
      | some (key, r2) =>
        match skipWsU r2 with
        | 0x3A :: r3 =>
          match parseValue fuel r3 with
          | none => none
          | some (v, r4) =>
            match skipWsU r4 with
            | 0x2C :: r5 => (parseObjItems fuel r5).map (fun p => ((key, v) :: p.1, p.2))
            | 0x7D :: r5 => some ([(key, v)], r5)
            | _ => none
        | _ => none
    | _ => none

end

/-- `JSON.parse` on a whole document: one value, with only whitespace allowed
around it.  `2 * length + 4` fuel bounds the recursion depth, which consumes
at most two fuel units per input unit. -/
def jsonParseDoc (units : List Nat) : Option Json :=
  match parseValue (2 * units.length + 4) units with
  | some (v, rest) => if skipWsU rest = [] then some v else none
  | none => none

/-! ### JS field access, truthiness, and `String(...)` conversion -/

/-- Property lookup on a parsed object: the last binding for the key (JS
object literals overwrite earlier duplicate keys). -/
def objGet (fields : List (List Nat × Json)) (k : List Nat) : Option Json :=
  (fields.reverse.find? (fun f => decide (f.1 = k))).map (fun f => f.2)

/-- Reading a named property of a parsed JSON value, `none` meaning JS
`undefined`: only objects carry these properties; `null` must be handled by
the caller (destructuring `null` throws). -/
def jsGet (v : Json) (k : List Nat) : Option Json :=
  match v with
  | Json.obj fs => objGet fs k
  | _ => none

/-- JS truthiness of a parsed JSON value (`!v` in the source): `null`,
`false`, `0` and the empty string are falsy; arrays and objects, including
empty ones, are truthy. -/
def jsTruthy (v : Json) : Bool :=
  match v with
  | Json.null => false
  | Json.bool b => b
  | Json.num m _ => decide (m ≠ 0)
  | Json.str u => decide (u ≠ [])
  | Json.arr _ => true
  | Json.obj _ => true

/-- Truthiness of a possibly-undefined value (`undefined` is falsy). -/
def optTruthy (v : Option Json) : Bool :=
  match v with
  | none => false
  | some j => jsTruthy j

/-- Decimal rendering of a number value `m * 10 ^ e`; exact-decimal model of
JS number-to-string, which agrees on integral values. -/
def numToUnits (m : Int) (e : Int) : List Nat :=
  if 0 ≤ e then asKey (toString (m * 10 ^ e.toNat))
  else
    let k := (-e).toNat
    let a := m.natAbs
    let fs := toString (a % 10 ^ k)
    (if m < 0 then [0x2D] else []) ++ asKey (toString (a / 10 ^ k)) ++
      0x2E :: (List.replicate (k - fs.length) 0x30 ++ asKey fs)

mutual

/-- JS `String(v)` on a parsed JSON value, as used for the Firestore document
id `String(channelNumber)` (line 481). -/
def jsStringOf : Json → List Nat
  | Json.null => asKey "null"
  | Json.bool true => asKey "true"
  | Json.bool false => asKey "false"
  | Json.num m e => numToUnits m e
  | Json.str u => u
  | Json.arr xs => jsStringItems xs
  | Json.obj _ => asKey "[object Object]"

/-- `Array.prototype.toString`: elements joined by commas, with `null`
elements rendered as the empty string. -/
def jsStringItems : List Json → List Nat
  | [] => []
  | [Json.null] => []
  | [x] => jsStringOf x
  | Json.null :: y :: xs => 0x2C :: jsStringItems (y :: xs)
  | x :: y :: xs => jsStringOf x ++ 0x2C :: jsStringItems (y :: xs)

end

/-! ### The `/upload` route handler after the AI call (lines 402-546) -/

/-- Object keys read by the validation code. -/
def kMainArtist : List Nat := asKey "main_artist"

/-- Key of the patch table field. -/
def kPatchListTable : List Nat := asKey "patch_list_table"

/-- Key of the per-row channel number. -/
def kChannelNumber : List Nat := asKey "channelNumber"

/-- Key of the per-row mic / DI field. -/
def kMicOrDi : List Nat := asKey "micOrDi"

/-- Key of the per-row patch name. -/
def kPatchName : List Nat := asKey "patchName"

/-- Key of the per-row comments / stand field. -/
def kCommentsOrStand : List Nat := asKey "commentsOrStand"

/-- One row written to Firestore (`batch.set` document data, lines 484-489). -/
structure PatchEntry where
  channelNumber : Json
  micOrDi : Json
  patchName : Json
  commentsOrStand : Json

/-- The destructuring and completeness check of one `patch_list_table`
element (lines 460-478): the row is kept iff none of the four fields is
`undefined`, i.e. iff all four keys are present; values are never inspected
beyond key presence. -/
def entryOf (p : Json) : Option PatchEntry :=
  match jsGet p kChannelNumber, jsGet p kMicOrDi, jsGet p kPatchName,
      jsGet p kCommentsOrStand with
  | some cn, some md, some pn, some cs => some ⟨cn, md, pn, cs⟩
  | _, _, _, _ => none

/-- The `patch_list_table.forEach` loop (lines 459-492): stage a
`(String(channelNumber), data)` write for each complete row, skip (with a
warning, counted here) each incomplete row, and throw — `none` — if a row is
`null` (destructuring `null` raises a `TypeError`, caught by the surrounding
`try` as a Firestore error). -/
def processPatches : List Json → Option (List (List Nat × PatchEntry) × Nat)
  | [] => some ([], 0)
  | p :: ps =>
    if isNullJson p then none
    else
      match entryOf p with
      | some e =>
        (processPatches ps).map (fun r => ((jsStringOf e.channelNumber, e) :: r.1, r.2))
      | none => (processPatches ps).map (fun r => (r.1, r.2 + 1))

/-- Which response the handler sent, one tag per distinct response site. -/
inductive Msg where
  /-- 200, `File uploaded and processed successfully.` (lines 517-521). -/
  | success
  /-- 500, `Invalid JSON format in extracted data.` (lines 422-424). -/
  | invalidJson
  /-- 400, `Extracted data is missing required fields: main_artist or
  patch_list_table.` (lines 437-441). -/
  | missingFields
  /-- 400, `No valid patch entries found in patch_list_table.`
  (lines 496-498). -/
  | noValidEntries
  /-- 500, `Error saving data to Firestore.` (lines 524-527). -/
  | firestoreError
  /-- 500, `Error processing the PDF` from the outer catch (lines 542-545). -/
  | processingError
deriving DecidableEq

/-- Outcomes of the external collaborators, fixed per request: whether the
Gemini upload/generate calls throw (outer catch), whether `batch.commit`
throws, and whether `fs.unlink` fails.  The source swallows unlink failures
at both call sites (lines 508-514 and 534-540), which is why `unlinkFails`
is never consulted by the handler embedding. -/
structure Env where
  geminiFails : Bool
  commitFails : Bool
  unlinkFails : Bool

/-- Everything observable about how the handler finished: HTTP status and
response tag, number of `fs.unlink` attempts, the Firestore collection
named, the writes staged in the batch (in order, document id and data), the
`writeCount` and per-row skip count, and the JSON response body when the
source builds one from the parsed data. -/
structure HandlerResult where
  status : Nat
  msg : Msg
  unlinkAttempts : Nat
  collection : Option (List Nat)
  batchOps : List (List Nat × PatchEntry)
  writeCount : Nat
  skipped : Nat
  body : Option Json

/-- The JSON body of the 200 response (lines 517-521): fixed message and
confirmation strings plus `geminiResponse`, the parsed extracted data
passed through unchanged. -/
def successBody (data : Json) : Json :=
  Json.obj
    [(asKey "message", Json.str (asKey "File uploaded and processed successfully.")),
     (asKey "uploadConfirmation", Json.str (asKey "File Upload successful.")),
     (asKey "geminiResponse", data)]

/-- A failure response that deletes nothing and commits nothing. -/
def failResult (status : Nat) (m : Msg) : HandlerResult :=
  ⟨status, m, 0, none, [], 0, 0, none⟩

/-- The Firestore phase of the route (lines 428-528): required-field check,
sanitization, per-row filtering, batch staging, commit and the success
response, with every `TypeError` raised inside (null destructuring,
`.replace` on a non-string, `.forEach` on a non-array) and every commit
failure landing in the `firestoreError` catch.  Values staged in a batch
that is never committed are not persisted; on the thrown paths the model
reports an empty batch. -/
def firestorePhase (commitFails : Bool) (data : Json) : HandlerResult :=
  if isNullJson data then failResult 500 Msg.firestoreError
  else
    if !optTruthy (jsGet data kMainArtist) || !optTruthy (jsGet data kPatchListTable) then
      failResult 400 Msg.missingFields
    else
      match jsGet data kMainArtist with
      | some (Json.str s) =>
        match jsGet data kPatchListTable with
        | some (Json.arr xs) =>
          match processPatches xs with
          | none => failResult 500 Msg.firestoreError
          | some (ops, skp) =>
            if ops.length = 0 then ⟨400, Msg.noValidEntries, 0, none, [], 0, skp, none⟩
            else if commitFails then
              ⟨500, Msg.firestoreError, 0, some (sanitizeStorageKey s), ops, ops.length, skp, none⟩
            else
              ⟨200, Msg.success, 1, some (sanitizeStorageKey s), ops, ops.length, skp,
                some (successBody data)⟩
        | _ => failResult 500 Msg.firestoreError
      | _ => failResult 500 Msg.firestoreError

/-- The whole route handler from the point the AI text is available: outer
catch for a failed Gemini call (which is the only failure path that deletes
the temp file), then fence unwrap, `JSON.parse` with its own catch, then the
Firestore phase.  Note the parse-failure, missing-field, no-valid-entries
and Firestore-error responses all `return` before any `fs.unlink`. -/
def handleUpload (env : Env) (text : List Nat) : HandlerResult :=
  if env.geminiFails then ⟨500, Msg.processingError, 1, none, [], 0, 0, none⟩
  else
    match jsonParseDoc (unwrapCodeFence text) with
    | none => failResult 500 Msg.invalidJson
    | some data => firestorePhase env.commitFails data

/-- `batch.set` on the committed store: create or overwrite the document at
the given id. -/
def setDoc : List (List Nat × PatchEntry) → List Nat → PatchEntry →
    List (List Nat × PatchEntry)
  | [], k, v => [(k, v)]
  | (k2, v2) :: rest, k, v =>
    if k2 = k then (k, v) :: rest else (k2, v2) :: setDoc rest k v

/-- `batch.commit`: apply the staged writes in order, later writes to the
same document id overwriting earlier ones. -/
def commitBatch (ops : List (List Nat × PatchEntry)) : List (List Nat × PatchEntry) :=
  ops.foldl (fun st kv => setDoc st kv.1 kv.2) []

/-- The documents actually persisted by a request: the committed batch on
success, nothing otherwise. -/
def persisted (r : HandlerResult) : List (List Nat × PatchEntry) :=
  if r.msg = Msg.success then commitBatch r.batchOps else []

/-! ### Helper lemmas -/

theorem dropWhile_append_of_ne {α : Type} (p : α → Bool) (l r : List α)
    (h : l.dropWhile p ≠ []) : (l ++ r).dropWhile p = l.dropWhile p ++ r := by
  induction l with
  | nil => exact absurd rfl h
  | cons a l ih =>
    by_cases hp : p a
    · simp only [List.cons_append, List.dropWhile_cons_of_pos hp]
      exact ih (by simpa [List.dropWhile_cons_of_pos hp] using h)
    · simp [List.dropWhile_cons_of_neg hp]

theorem dropWhile_append_of_nil {α : Type} (p : α → Bool) (l r : List α)
    (h : l.dropWhile p = []) : (l ++ r).dropWhile p = r.dropWhile p := by
  induction l with
  | nil => simp
  | cons a l ih =>
    by_cases hp : p a
    · simp only [List.cons_append, List.dropWhile_cons_of_pos hp]
      exact ih (by simpa [List.dropWhile_cons_of_pos hp] using h)
    · simp [List.dropWhile_cons_of_neg hp] at h

theorem trimU_cons_nl (s : List Nat) : trimU (0x0A :: s) = trimU s := by
  simp [trimU, List.dropWhile_cons_of_pos (show jsWsU 0x0A = true from rfl)]

theorem trimU_append_nl (s : List Nat) : trimU (s ++ [0x0A]) = trimU s := by
  unfold trimU
  by_cases h : s.dropWhile jsWsU = []
  · rw [dropWhile_append_of_nil _ _ _ h, h]
    simp [List.dropWhile, show jsWsU 0x0A = true from rfl]
  · rw [dropWhile_append_of_ne _ _ _ h]
    simp [List.dropWhile_cons_of_pos (show jsWsU 0x0A = true from rfl)]

theorem unwrap_wrap_eq (s : List Nat) :
    unwrapCodeFence (wrapJson s) =
      if trimU s = [] then wrapJson s else trimU s := by
  have h1 : unwrapCodeFence (wrapJson s) =
      (match (0x0A :: (s ++ [0x0A, 0x60, 0x60, 0x60])).reverse with
       | 0x60 :: 0x60 :: 0x60 :: revInner =>
         if trimU revInner.reverse = [] then wrapJson s else trimU revInner.reverse
       | _ => wrapJson s) := rfl
  have h2 : (0x0A :: (s ++ [0x0A, 0x60, 0x60, 0x60])).reverse
      = 0x60 :: 0x60 :: 0x60 :: (0x0A :: (s.reverse ++ [0x0A])) := by
    simp
  rw [h1, h2]
  have h3 : (0x0A :: (s.reverse ++ [0x0A])).reverse = 0x0A :: (s ++ [0x0A]) := by
    simp
  simp only [h3, trimU_cons_nl, trimU_append_nl]

theorem unwrap_of_not_fence (t : List Nat) (h : fenceShape t = false) :
    unwrapCodeFence t = t := by
  unfold unwrapCodeFence
  split
  · next rest =>
    split
    · next revInner hrev =>
      rw [fenceShape] at h
      rw [hrev] at h
      simp at h
    · rfl
  · rfl

theorem firestorePhase_msg_unlink (cf : Bool) (d : Json) :
    ((firestorePhase cf d).msg = Msg.success ∧
        (firestorePhase cf d).unlinkAttempts = 1) ∨
      ((firestorePhase cf d).msg = Msg.missingFields ∨
          (firestorePhase cf d).msg = Msg.noValidEntries ∨
          (firestorePhase cf d).msg = Msg.firestoreError) ∧
        (firestorePhase cf d).unlinkAttempts = 0 := by
  unfold firestorePhase failResult
  repeat' split
  all_goals simp

/-! ### Claim theorems -/

/-- C1.  The claim that unwrapping `` ```json\n<s>\n``` `` returns exactly
`s` for every string `s` is false: the regex's `\s*` groups strip leading
and trailing whitespace from the captured content, so for `s = "a "` the
unwrap step returns `"a"`, not `"a "`. -/
theorem C1_counterexample :
    ¬ unwrapCodeFence (wrapJson (asKey "a ")) = asKey "a " := by decide

/-- C1 (amended).  Unwrapping `` ```json\n<s>\n``` `` returns `s` stripped
of leading and trailing whitespace when that is non-empty (hence exactly
`s` when `s` is non-empty with no surrounding whitespace), and returns the
wrapped input unchanged when the trimmed content is empty; any string not
matching the whole-string fence pattern is returned unchanged. -/
theorem C1_unwrap_fence :
    (∀ s : List Nat, unwrapCodeFence (wrapJson s) =
      if trimU s = [] then wrapJson s else trimU s) ∧
    (∀ s : List Nat, trimU s = s → s ≠ [] → unwrapCodeFence (wrapJson s) = s) ∧
    (∀ t : List Nat, fenceShape t = false → unwrapCodeFence t = t) := by
  refine ⟨unwrap_wrap_eq, ?_, unwrap_of_not_fence⟩
  intro s hts hne
  rw [unwrap_wrap_eq s, hts, if_neg hne]

/-- C1 witness: the amended round trip and the identity on a non-fenced
string, evaluated at concrete inputs. -/
theorem C1_unwrap_fence_witness :
    unwrapCodeFence (wrapJson (asKey "abc")) = asKey "abc" ∧
    unwrapCodeFence (asKey "hello") = asKey "hello" := by
  constructor
  · exact C1_unwrap_fence.2.1 (asKey "abc") (by decide) (by decide)
  · exact C1_unwrap_fence.2.2 (asKey "hello") (by decide)

/-- C2.  The claim that temp-file deletion is attempted exactly once per
request on failure paths too is false: on a JSON parse failure the handler
returns the 500 `Invalid JSON format` response before reaching any
`fs.unlink` call, so zero deletions are attempted. -/
theorem C2_counterexample :
    (handleUpload ⟨false, false, false⟩ (asKey "not json")).msg = Msg.invalidJson ∧
    (handleUpload ⟨false, false, false⟩ (asKey "not json")).unlinkAttempts = 0 := by
  exact ⟨by decide, by decide⟩

/-- C2 (amended).  Deletion of the uploaded temporary file is attempted
exactly once on the success path and on the outer-catch (thrown AI call)
path, and zero times on the parse-failure, missing-field, no-valid-entries
and Firestore-error response paths; the outcome of the deletion attempt
(`unlinkFails`) never changes any part of the handler's result. -/
theorem C2_unlink_once :
    ∀ (env : Env) (t : List Nat),
      ((handleUpload env t).msg = Msg.success ∨
          (handleUpload env t).msg = Msg.processingError →
        (handleUpload env t).unlinkAttempts = 1) ∧
      ((handleUpload env t).msg = Msg.invalidJson ∨
          (handleUpload env t).msg = Msg.missingFields ∨
          (handleUpload env t).msg = Msg.noValidEntries ∨
          (handleUpload env t).msg = Msg.firestoreError →
        (handleUpload env t).unlinkAttempts = 0) ∧
      (∀ b b2 : Bool,
        handleUpload ⟨env.geminiFails, env.commitFails, b⟩ t =
          handleUpload ⟨env.geminiFails, env.commitFails, b2⟩ t) := by
  intro env t
  refine ⟨?_, ?_, fun b b2 => rfl⟩ <;>
    · intro hm
      unfold handleUpload at hm ⊢
      split at hm
      · simp_all
      · split at hm
        · simp_all [failResult]
        · rcases firestorePhase_msg_unlink env.commitFails ‹Json› with ⟨h1, h2⟩ | ⟨h1, h2⟩
          <;> rename_i data _
          <;> rcases hm with hm | hm
          <;> simp_all

set_option maxRecDepth 100000 in
/-- C2 witness: one unlink attempt on a concrete success request, zero on a
concrete parse-failure request. -/
theorem C2_unlink_once_witness :
    (handleUpload ⟨false, false, false⟩
        (asKey "\x7b\"main_artist\":\"A\",\"patch_list_table\":[\x7b\"channelNumber\":1,\"micOrDi\":\"a\",\"patchName\":\"b\",\"commentsOrStand\":\"c\"\x7d]\x7d")).unlinkAttempts
        = 1 ∧
    (handleUpload ⟨false, false, false⟩ (asKey "nope")).unlinkAttempts = 0 := by
  constructor
  · exact (C2_unlink_once ⟨false, false, false⟩
      (asKey "\x7b\"main_artist\":\"A\",\"patch_list_table\":[\x7b\"channelNumber\":1,\"micOrDi\":\"a\",\"patchName\":\"b\",\"commentsOrStand\":\"c\"\x7d]\x7d")).1
      (Or.inl (by decide))
  · exact (C2_unlink_once ⟨false, false, false⟩ (asKey "nope")).2.1
      (Or.inl (by decide))

theorem processPatches_filter (xs : List Json) (h : ∀ p ∈ xs, isNullJson p = false) :
    processPatches xs =
      some (xs.filterMap
          (fun p => (entryOf p).map (fun e => (jsStringOf e.channelNumber, e))),
        (xs.filter (fun p => (entryOf p).isNone)).length) := by
  induction xs with
  | nil => rfl
  | cons p ps ih =>
    have hp : isNullJson p = false := h p (List.mem_cons_self p ps)
    have hps : ∀ q ∈ ps, isNullJson q = false :=
      fun q hq => h q (List.mem_cons_of_mem p hq)
    unfold processPatches
    rw [hp]
    cases he : entryOf p with
    | some e => simp [ih hps, List.filterMap_cons, List.filter_cons, he]
    | none => simp [ih hps, List.filterMap_cons, List.filter_cons, he]

/-- The spec's two-row example table: channel 1 complete, channel 2 missing
`patchName` and `commentsOrStand`. -/
def entryKickJ : Json :=
  Json.obj [(kChannelNumber, Json.num 1 0), (kMicOrDi, Json.str (asKey "SM58")),
    (kPatchName, Json.str (asKey "Kick")), (kCommentsOrStand, Json.str (asKey "boom"))]

/-- The incomplete second row of the spec's example. -/
def entryDIJ : Json :=
  Json.obj [(kChannelNumber, Json.num 2 0), (kMicOrDi, Json.str (asKey "DI"))]

/-- A parsed record holding the spec's two-row example table. -/
def dataC3 : Json :=
  Json.obj [(kMainArtist, Json.str (asKey "A")),
    (kPatchListTable, Json.arr [entryKickJ, entryDIJ])]

/-- C3.  Rows missing a required field are dropped (never defaulted) without
aborting the remaining rows: for any table without null rows the staged
writes are exactly the complete rows in order and the skip counter is the
number of incomplete rows; on the spec's two-row example the request
succeeds with exactly the channel-1 document staged and one exclusion
counted. -/
theorem C3_incomplete_rows_dropped :
    (∀ xs : List Json, (∀ p ∈ xs, isNullJson p = false) →
      processPatches xs =
        some (xs.filterMap
            (fun p => (entryOf p).map (fun e => (jsStringOf e.channelNumber, e))),
          (xs.filter (fun p => (entryOf p).isNone)).length)) ∧
    firestorePhase false dataC3 =
      ⟨200, Msg.success, 1, some (asKey "A"),
        [(asKey "1", ⟨Json.num 1 0, Json.str (asKey "SM58"), Json.str (asKey "Kick"),
          Json.str (asKey "boom")⟩)], 1, 1, some (successBody dataC3)⟩ := by
  exact ⟨processPatches_filter, rfl⟩

/-- C3 witness: the row filter evaluated on the spec's example rows. -/
theorem C3_incomplete_rows_dropped_witness :
    processPatches [entryKickJ, entryDIJ] =
      some ([(asKey "1", ⟨Json.num 1 0, Json.str (asKey "SM58"), Json.str (asKey "Kick"),
        Json.str (asKey "boom")⟩)], 1) := by
  rw [C3_incomplete_rows_dropped.1 [entryKickJ, entryDIJ] (by decide)]
  rfl

/-- C4.  Sanitizing a storage key is exactly: collapse every whitespace run
to one underscore, then delete every remaining code unit outside
`[A-Za-z0-9_]` (so only word characters survive); on the spec's examples,
`"Foo Bar & Baz!!"` becomes `"Foo_Bar__Baz"` and both `""` and `"!!!"`
become the empty string. -/
theorem C4_sanitize_storage_key :
    (∀ us : List Nat, sanitizeStorageKey us = (collapseWsU false us).filter isWordU) ∧
    sanitizeStorageKey (asKey "Foo Bar & Baz!!") = asKey "Foo_Bar__Baz" ∧
    sanitizeStorageKey (asKey "") = asKey "" ∧
    sanitizeStorageKey (asKey "!!!") = asKey "" ∧
    (∀ (us : List Nat) (u : Nat), u ∈ sanitizeStorageKey us → isWordU u = true) := by
  refine ⟨fun _ => rfl, by decide, by decide, by decide, ?_⟩
  intro us u hm
  exact List.of_mem_filter hm

/-- C4 witness: every unit of a concrete sanitized key is a word character. -/
theorem C4_sanitize_storage_key_witness : isWordU 0x61 = true := by
  exact C4_sanitize_storage_key.2.2.2.2 (asKey "a b") 0x61 (by decide)

/-- C5.  The claim that an empty `patch_list_table` sequence triggers the
missing-required-field failure is false: `![]` is `false` in JS (an empty
array is truthy), so a record with a non-null `main_artist` and an empty
table passes the required-field check and fails later with the
no-valid-entries response instead. -/
theorem C5_counterexample :
    (firestorePhase false (Json.obj [(kMainArtist, Json.str (asKey "A")),
        (kPatchListTable, Json.arr [])])).msg = Msg.noValidEntries ∧
    ¬ (firestorePhase false (Json.obj [(kMainArtist, Json.str (asKey "A")),
        (kPatchListTable, Json.arr [])])).msg = Msg.missingFields := by
  exact ⟨by decide, by decide⟩

/-- C5 (amended).  For every parsed non-null record in which `main_artist`
or `patch_list_table` is absent or JS-falsy (`undefined`, `null`, `false`,
`0`, the empty string — but not an empty array, which is truthy), validation
fails with the 400 missing-required-fields response (whose fixed message
names both candidate fields), staging no entries; in particular this happens
when `main_artist` is `null` even with a well-formed non-empty table. -/
theorem C5_missing_required_field :
    ∀ (cf : Bool) (d : Json), isNullJson d = false →
      (optTruthy (jsGet d kMainArtist) = false ∨
        optTruthy (jsGet d kPatchListTable) = false) →
      firestorePhase cf d = failResult 400 Msg.missingFields := by
  intro cf d h0 h1
  rcases h1 with h1 | h1 <;> simp [firestorePhase, h0, h1]

/-- C5 witness: `main_artist : null` with a well-formed one-row table fails
with the missing-required-fields response. -/
theorem C5_missing_required_field_witness :
    firestorePhase false (Json.obj [(kMainArtist, Json.null),
        (kPatchListTable, Json.arr [Json.obj [(kChannelNumber, Json.num 1 0),
          (kMicOrDi, Json.str (asKey "a")), (kPatchName, Json.str (asKey "b")),
          (kCommentsOrStand, Json.str (asKey "c"))]])])
      = failResult 400 Msg.missingFields := by
  exact C5_missing_required_field false _ (by decide) (Or.inl (by decide))

/-- C6.  When the required-field check passes (non-empty string artist) and
the table is a non-empty array in which every row is missing at least one
required field, zero writes remain after filtering and the request fails
with the 400 no-valid-entries response (counting every row as skipped)
rather than succeeding with an empty batch. -/
theorem C6_no_valid_entries :
    ∀ (cf : Bool) (d : Json) (s : List Nat) (xs : List Json),
      jsGet d kMainArtist = some (Json.str s) → s ≠ [] →
      jsGet d kPatchListTable = some (Json.arr xs) → xs ≠ [] →
      (∀ p ∈ xs, isNullJson p = false ∧ (entryOf p).isNone = true) →
      firestorePhase cf d = ⟨400, Msg.noValidEntries, 0, none, [], 0, xs.length, none⟩ := by
  intro cf d s xs hma hs hplt _ hall
  have h0 : isNullJson d = false := by
    cases d <;> simp_all [jsGet, isNullJson]
  have ha : xs.filterMap
      (fun p => (entryOf p).map (fun e => (jsStringOf e.channelNumber, e))) = [] := by
    refine List.filterMap_eq_nil_iff.mpr (fun p hp => ?_)
    have h2 := (hall p hp).2
    rw [Option.isNone_iff_eq_none] at h2
    rw [h2]
    rfl
  have hb : xs.filter (fun p => (entryOf p).isNone) = xs :=
    List.filter_eq_self.mpr (fun p hp => (hall p hp).2)
  have hproc : processPatches xs = some ([], xs.length) := by
    rw [processPatches_filter xs (fun p hp => (hall p hp).1), ha, hb]
  simp [firestorePhase, h0, hma, hplt, hproc, optTruthy, jsTruthy, hs]

/-- C6 witness: a two-row table whose rows both miss required fields fails
with the no-valid-entries response and two skipped rows. -/
theorem C6_no_valid_entries_witness :
    firestorePhase false (Json.obj [(kMainArtist, Json.str (asKey "A")),
        (kPatchListTable, Json.arr [Json.obj [(kChannelNumber, Json.num 2 0)],
          Json.obj []])])
      = ⟨400, Msg.noValidEntries, 0, none, [], 0, 2, none⟩ := by
  exact C6_no_valid_entries false _ (asKey "A")
    [Json.obj [(kChannelNumber, Json.num 2 0)], Json.obj []]
    rfl (by decide) rfl (List.cons_ne_nil _ _) (by decide)

theorem firestorePhase_msg_ne_invalid (cf : Bool) (d : Json) :
    (firestorePhase cf d).msg ≠ Msg.invalidJson := by
  rcases firestorePhase_msg_unlink cf d with ⟨h1, _⟩ | ⟨h1, _⟩
  · rw [h1]; simp
  · rcases h1 with h1 | h1 | h1 <;> rw [h1] <;> simp

/-- C7.  The handler (when the AI call itself did not throw) answers with
the 500 invalid-JSON response exactly when the unwrapped text fails to parse
as JSON, in which case nothing is staged or persisted and no further
processing happens (terminal, no partial recovery); on any text that parses,
the parsed structure is handed to the Firestore phase as-is.  Concretely,
`"not json"` and `"{unterminated"` fail to parse and a well-formed document
parses to its structure. -/
theorem C7_parse_error :
    (∀ (env : Env) (t : List Nat), env.geminiFails = false →
      jsonParseDoc (unwrapCodeFence t) = none →
      handleUpload env t = failResult 500 Msg.invalidJson) ∧
    (∀ (env : Env) (t : List Nat) (j : Json), env.geminiFails = false →
      jsonParseDoc (unwrapCodeFence t) = some j →
      handleUpload env t = firestorePhase env.commitFails j) ∧
    (∀ (env : Env) (t : List Nat), env.geminiFails = false →
      ((handleUpload env t).msg = Msg.invalidJson ↔
        jsonParseDoc (unwrapCodeFence t) = none)) ∧
    jsonParseDoc (asKey "not json") = none ∧
    jsonParseDoc (asKey "\x7bunterminated") = none ∧
    jsonParseDoc (asKey "[1, true, null, \"a\", \x7b\"b\":2.5e1\x7d]") =
      some (Json.arr [Json.num 1 0, Json.bool true, Json.null, Json.str (asKey "a"),
        Json.obj [(asKey "b", Json.num 25 0)]]) := by
  refine ⟨?_, ?_, ?_, rfl, rfl, rfl⟩
  · intro env t hg hp
    simp [handleUpload, hg, hp]
  · intro env t j hg hp
    simp [handleUpload, hg, hp]
  · intro env t hg
    cases hp : jsonParseDoc (unwrapCodeFence t) with
    | none => simp [handleUpload, hg, hp, failResult]
    | some j => simp [handleUpload, hg, hp, firestorePhase_msg_ne_invalid]

/-- C7 witness: the parse-failure path on a concrete non-JSON text and the
pass-through on a concrete JSON text. -/
theorem C7_parse_error_witness :
    handleUpload ⟨false, false, false⟩ (asKey "oops") = failResult 500 Msg.invalidJson ∧
    handleUpload ⟨false, false, false⟩ (asKey "4") = firestorePhase false (Json.num 4 0) := by
  constructor
  · exact C7_parse_error.1 ⟨false, false, false⟩ (asKey "oops") rfl rfl
  · exact C7_parse_error.2.1 ⟨false, false, false⟩ (asKey "4") (Json.num 4 0) rfl rfl

/-- A record whose single row carries all four keys with falsy values
(`channelNumber: 0`, `micOrDi: ""`, `patchName: null`,
`commentsOrStand: false`). -/
def dataC8 : Json :=
  Json.obj [(kMainArtist, Json.str (asKey "A")),
    (kPatchListTable, Json.arr [Json.obj [(kChannelNumber, Json.num 0 0),
      (kMicOrDi, Json.str []), (kPatchName, Json.null),
      (kCommentsOrStand, Json.bool false)]])]

/-- C8.  The per-row exclusion criterion is exactly key absence: a row with
all four keys present is kept whatever the values (never a truthiness
check), and a row is dropped precisely when one of the four keys is absent;
concretely a row with `channelNumber: 0`, `micOrDi: ""`, `patchName: null`
and `commentsOrStand: false` is staged (as document id `"0"`) and the
request succeeds. -/
theorem C8_key_absence_only :
    (∀ (p cn md pn cs : Json),
      jsGet p kChannelNumber = some cn → jsGet p kMicOrDi = some md →
      jsGet p kPatchName = some pn → jsGet p kCommentsOrStand = some cs →
      entryOf p = some ⟨cn, md, pn, cs⟩) ∧
    (∀ p : Json, entryOf p = none ↔
      (jsGet p kChannelNumber = none ∨ jsGet p kMicOrDi = none ∨
        jsGet p kPatchName = none ∨ jsGet p kCommentsOrStand = none)) ∧
    firestorePhase false dataC8 =
      ⟨200, Msg.success, 1, some (asKey "A"),
        [(asKey "0", ⟨Json.num 0 0, Json.str [], Json.null, Json.bool false⟩)], 1, 0,
        some (successBody dataC8)⟩ := by
  refine ⟨?_, ?_, rfl⟩
  · intro p cn md pn cs h1 h2 h3 h4
    simp [entryOf, h1, h2, h3, h4]
  · intro p
    cases h1 : jsGet p kChannelNumber <;> cases h2 : jsGet p kMicOrDi <;>
      cases h3 : jsGet p kPatchName <;> cases h4 : jsGet p kCommentsOrStand <;>
      simp [entryOf, h1, h2, h3, h4]

/-- C8 witness: the all-keys-present falsy-valued row is accepted by the
row filter. -/
theorem C8_key_absence_only_witness :
    entryOf (Json.obj [(kChannelNumber, Json.num 0 0), (kMicOrDi, Json.str []),
        (kPatchName, Json.null), (kCommentsOrStand, Json.bool false)])
      = some ⟨Json.num 0 0, Json.str [], Json.null, Json.bool false⟩ := by
  exact C8_key_absence_only.1 _ _ _ _ _ rfl rfl rfl rfl

theorem firestorePhase_cases (cf : Bool) (d : Json) :
    firestorePhase cf d = failResult 500 Msg.firestoreError ∨
    firestorePhase cf d = failResult 400 Msg.missingFields ∨
    (∃ skp, firestorePhase cf d = ⟨400, Msg.noValidEntries, 0, none, [], 0, skp, none⟩) ∨
    (∃ s ops skp, jsGet d kMainArtist = some (Json.str s) ∧
      firestorePhase cf d =
        ⟨500, Msg.firestoreError, 0, some (sanitizeStorageKey s), ops, ops.length,
          skp, none⟩) ∨
    (∃ s xs ops skp, jsGet d kMainArtist = some (Json.str s) ∧
      jsGet d kPatchListTable = some (Json.arr xs) ∧
      processPatches xs = some (ops, skp) ∧
      firestorePhase cf d =
        ⟨200, Msg.success, 1, some (sanitizeStorageKey s), ops, ops.length, skp,
          some (successBody d)⟩) := by
  unfold firestorePhase
  repeat' split
  all_goals first
    | exact Or.inl rfl
    | exact Or.inr (Or.inl rfl)
    | exact Or.inr (Or.inr (Or.inl ⟨_, rfl⟩))
    | exact Or.inr (Or.inr (Or.inr (Or.inl ⟨_, _, _, by assumption, rfl⟩)))
    | exact Or.inr (Or.inr (Or.inr (Or.inr
        ⟨_, _, _, _, by assumption, by assumption, by assumption, rfl⟩)))

/-- The complete first row of the record used to refute C9. -/
def entryC9a : Json :=
  Json.obj [(kChannelNumber, Json.num 1 0), (kMicOrDi, Json.str (asKey "SM57")),
    (kPatchName, Json.str (asKey "Snare")), (kCommentsOrStand, Json.str (asKey "clip"))]

/-- The incomplete second row of the record used to refute C9. -/
def entryC9b : Json :=
  Json.obj [(kChannelNumber, Json.num 2 0), (kMicOrDi, Json.str (asKey "DI"))]

/-- A parsed record with one complete and one incomplete row. -/
def dataC9 : Json :=
  Json.obj [(kMainArtist, Json.str (asKey "Test")),
    (kPatchListTable, Json.arr [entryC9a, entryC9b])]

/-- C9.  The claim that the success output delivered to the caller is
`{ mainArtist, storageKey, entries }` with exactly the filtered entries is
false: the 200 response body has no `mainArtist`, `storageKey` or `entries`
members — it is the fixed messages plus `geminiResponse`, the parsed record
passed through unchanged, still holding the row the filter excluded (two
rows in the body while only one was written). -/
theorem C9_counterexample :
    (firestorePhase false dataC9).msg = Msg.success ∧
    (firestorePhase false dataC9).body = some (successBody dataC9) ∧
    jsGet (successBody dataC9) (asKey "storageKey") = none ∧
    jsGet (successBody dataC9) (asKey "mainArtist") = none ∧
    jsGet (successBody dataC9) (asKey "entries") = none ∧
    jsGet (successBody dataC9) (asKey "geminiResponse") = some dataC9 ∧
    jsGet dataC9 kPatchListTable = some (Json.arr [entryC9a, entryC9b]) ∧
    (firestorePhase false dataC9).writeCount = 1 := by
  exact ⟨by decide, rfl, rfl, rfl, rfl, rfl, rfl, by decide⟩

/-- C9 (amended).  On every successful request the caller receives the 200
body `successBody` — fixed message and confirmation plus the full parsed
record as `geminiResponse` — while the validated artist string, the
sanitized storage key and the filtered entry sequence go to the persistence
layer as the collection name and the staged batch writes (with
`writeCount` the number of staged writes). -/
theorem C9_success_output :
    ∀ (cf : Bool) (d : Json) (r : HandlerResult), firestorePhase cf d = r →
      r.msg = Msg.success →
      r.status = 200 ∧ r.body = some (successBody d) ∧
      ∃ s xs ops skp,
        jsGet d kMainArtist = some (Json.str s) ∧
        jsGet d kPatchListTable = some (Json.arr xs) ∧
        processPatches xs = some (ops, skp) ∧
        r.collection = some (sanitizeStorageKey s) ∧
        r.batchOps = ops ∧ r.writeCount = ops.length ∧ r.skipped = skp := by
  intro cf d r hr hm
  rcases firestorePhase_cases cf d with h | h | ⟨skp, h⟩ | ⟨s, ops, skp, hs, h⟩ |
    ⟨s, xs, ops, skp, hs, hx, hp, h⟩
  · rw [h] at hr; subst hr; simp [failResult] at hm
  · rw [h] at hr; subst hr; simp [failResult] at hm
  · rw [h] at hr; subst hr; simp at hm
  · rw [h] at hr; subst hr; simp at hm
  · rw [h] at hr; subst hr
    exact ⟨rfl, rfl, s, xs, ops, skp, hs, hx, hp, rfl, rfl, rfl, rfl⟩

/-- C9 witness: the amended success-output contract evaluated on a concrete
successful request. -/
theorem C9_success_output_witness :
    (firestorePhase false dataC9).status = 200 ∧
    (firestorePhase false dataC9).body = some (successBody dataC9) := by
  exact ⟨(C9_success_output false dataC9 _ rfl (by decide)).1,
    (C9_success_output false dataC9 _ rfl (by decide)).2.1⟩

/-- AI text for the C10 scenario, a fenced record whose two complete rows
have channel numbers `1` (a number) and `"1"` (a string), which stringify to
the same document id. -/
def textC10 : List Nat :=
  asKey "```json\n\x7b\"main_artist\":\"A\",\"patch_list_table\":[\x7b\"channelNumber\":1,\"micOrDi\":\"a\",\"patchName\":\"b\",\"commentsOrStand\":\"c\"\x7d,\x7b\"channelNumber\":\"1\",\"micOrDi\":\"d\",\"patchName\":\"e\",\"commentsOrStand\":\"f\"\x7d]\x7d\n```"

/-- The first staged row of the C10 scenario. -/
def entryC10a : PatchEntry :=
  ⟨Json.num 1 0, Json.str (asKey "a"), Json.str (asKey "b"), Json.str (asKey "c")⟩

/-- The second staged row of the C10 scenario. -/
def entryC10b : PatchEntry :=
  ⟨Json.str (asKey "1"), Json.str (asKey "d"), Json.str (asKey "e"), Json.str (asKey "f")⟩

set_option maxRecDepth 100000 in
/-- C10.  Documents are keyed by `String(channelNumber)` inside the
collection named by the storage key: with rows whose channel numbers `1` and
`"1"` share the string form, both writes are staged under document id `"1"`
and counted in `writeCount`, the request succeeds with no error, and the
committed store holds a single document whose data is the later row's. -/
theorem C10_duplicate_doc_ids :
    (handleUpload ⟨false, false, false⟩ textC10).status = 200 ∧
    (handleUpload ⟨false, false, false⟩ textC10).msg = Msg.success ∧
    (handleUpload ⟨false, false, false⟩ textC10).collection = some (asKey "A") ∧
    (handleUpload ⟨false, false, false⟩ textC10).batchOps =
      [(asKey "1", entryC10a), (asKey "1", entryC10b)] ∧
    (handleUpload ⟨false, false, false⟩ textC10).writeCount = 2 ∧
    persisted (handleUpload ⟨false, false, false⟩ textC10) = [(asKey "1", entryC10b)] := by
  exact ⟨by decide, by decide, rfl, rfl, by decide, rfl⟩

end PatchupPdf
